import Mathlib

/-!
# Verification of the RGame scene/UI composition layer

Shallow embedding of the RGame repository's core (UIElement / UIContainer /
Scene / SceneManager / AnimatedTexture / Button) and proofs of the spec's
claims about it.

`std::map<std::string, T*>` is modelled as a key-sorted association list
`List (String × T)`; `emplace`, `find`, `erase` and `operator[]` are
translated below.  Raw owned pointers are modelled by tagging each stored
object with a numeric identity (`ptr`); destructor runs are reported as
lists of destroyed identities.  Engine calls (raylib) that only render are
modelled as emitted events; mouse state is passed in explicitly.
-/

namespace RGame

/-- Model of `std::map::emplace` on a key-sorted association list: inserts
`(k, v)` at its sorted position, and does nothing when the key is already
present (emplace does not overwrite).  Generic in the key type, like
`std::map`. -/
def mapEmplace {κ α : Type} [LinearOrder κ] : List (κ × α) → κ → α → List (κ × α)
  | [], k, v => [(k, v)]
  | (k1, v1) :: t, k, v =>
    if k < k1 then (k, v) :: (k1, v1) :: t
    else if k1 < k then (k1, v1) :: mapEmplace t k v
    else (k1, v1) :: t

/-- Model of `std::map::find`: the value stored at key `k`, if any. -/
def mapFind {κ α : Type} [DecidableEq κ] : List (κ × α) → κ → Option α
  | [], _ => none
  | (k1, v1) :: t, k => if k = k1 then some v1 else mapFind t k

/-- Model of `std::map::erase(key)`: removes the entry with key `k`
(at most one is ever stored). -/
def mapErase {κ α : Type} [DecidableEq κ] : List (κ × α) → κ → List (κ × α)
  | [], _ => []
  | (k1, v1) :: t, k => if k = k1 then t else (k1, v1) :: mapErase t k

/-- `globals.hxx`: `const int MIN_DRAW_ORDER = -100`. -/
def MIN_DRAW_ORDER : Int := -100

/-- `globals.hxx`: `const int MAX_DRAW_ORDER = 100`. -/
def MAX_DRAW_ORDER : Int := 100

/-- State of a `UIElement` (`UI.hpp`): draw order, display flag (`active`),
update flag (`enabled`).  The element's virtual `Update()` body is
instrumented by the invocation counter `updates`; the pointer identity
`ptr` models the heap address the owning container stores. -/
structure UIElement where
  ptr : Nat
  draw_order : Int
  active : Bool
  enabled : Bool
  updates : Nat
deriving DecidableEq, Repr

namespace UIElement

/-- `UIElement::UIElement()` : `draw_order(0), enabled(true), active(true)`
(identity and counter supplied by the model). -/
def init (p : Nat) : UIElement :=
  { ptr := p, draw_order := 0, active := true, enabled := true, updates := 0 }

/-- `UIElement::SetDrawOrder`: stores `_order`, then pulls it up to
`MIN_DRAW_ORDER` and down to `MAX_DRAW_ORDER`. -/
def SetDrawOrder (e : UIElement) (o : Int) : UIElement :=
  let d1 := o
  let d2 := if d1 < MIN_DRAW_ORDER then MIN_DRAW_ORDER else d1
  let d3 := if d2 > MAX_DRAW_ORDER then MAX_DRAW_ORDER else d2
  { e with draw_order := d3 }

/-- `UIElement::GetDrawOrder`. -/
def GetDrawOrder (e : UIElement) : Int := e.draw_order

/-- `UIElement::GetDisplayState`. -/
def GetDisplayState (e : UIElement) : Bool := e.active

/-- `UIElement::SetDisplayState`. -/
def SetDisplayState (e : UIElement) (b : Bool) : UIElement := { e with active := b }

/-- `UIElement::IsEnabled`. -/
def IsEnabled (e : UIElement) : Bool := e.enabled

/-- The element's virtual `Update()` call, instrumented as a counter bump. -/
def doUpdate (e : UIElement) : UIElement := { e with updates := e.updates + 1 }

end UIElement

/-- `UIContainer` (`UI.hpp`): a `std::map<std::string, UIElement*>` plus the
container's own `draw_order`. -/
structure UIContainer where
  elements : List (String × UIElement)
  draw_order : Int
deriving DecidableEq, Repr

namespace UIContainer

/-- `UIContainer::UIContainer()` : `draw_order(0)`, empty map. -/
def init : UIContainer := { elements := [], draw_order := 0 }

/-- `UIContainer::AddElement`: `elements.emplace(id, _element)`. -/
def AddElement (c : UIContainer) (id : String) (e : UIElement) : UIContainer :=
  { c with elements := mapEmplace c.elements id e }

/-- `UIContainer::RemoveElement`: `delete elements[id]; elements.erase(id);`.
When `id` is stored, `operator[]` returns the stored pointer, `delete`
destroys that element, and `erase` drops the entry.  When `id` is absent,
`operator[]` value-initializes a fresh null-pointer entry, `delete nullptr`
destroys nothing, and `erase` removes that fresh entry again, so the stored
mappings are unchanged.  The second component lists the identities of the
elements destroyed by the call. -/
def RemoveElement (c : UIContainer) (id : String) : UIContainer × List Nat :=
  match mapFind c.elements id with
  | some e => ({ c with elements := mapErase c.elements id }, [e.ptr])
  | none => (c, [])

/-- `UIContainer::GetElement`: returns the stored element, or signals
NotFound (`ThrowNotFoundException(id)`). -/
def GetElement (c : UIContainer) (id : String) : Except String UIElement :=
  match mapFind c.elements id with
  | some e => Except.ok e
  | none => Except.error id

/-- `UIContainer::GetDrawOrder`. -/
def GetDrawOrder (c : UIContainer) : Int := c.draw_order

/-- `UIContainer::SetDrawOrder`: `draw_order = _order;` — no clamping. -/
def SetDrawOrder (c : UIContainer) (o : Int) : UIContainer :=
  { c with draw_order := o }

/-- The per-element step of `UIContainer::Update()`:
`if (element.second->GetDisplayState()) element.second->Update();`. -/
def updateGate (e : UIElement) : UIElement :=
  if e.GetDisplayState then e.doUpdate else e

/-- `UIContainer::Update()`: for each stored element, call its `Update()`
when `GetDisplayState()` is true. -/
def Update (c : UIContainer) : UIContainer :=
  { c with elements := c.elements.map (fun p => (p.1, updateGate p.2)) }

/-- One pass of `UIContainer::Draw()`'s inner loop: ids of the elements
drawn at order value `i` (those with `GetDrawOrder() == i` whose display
state is true), in map order. -/
def drawPass (els : List (String × UIElement)) (i : Int) : List String :=
  els.filterMap (fun p =>
    if p.2.GetDrawOrder = i ∧ p.2.GetDisplayState then some p.1 else none)

/-- `UIContainer::Draw()`: `for (int i = MIN_DRAW_ORDER; i < MAX_DRAW_ORDER; i++)`
(upper bound exclusive, 200 iterations) drawing each matching displayed
element; the trace lists the drawn element ids in order. -/
def DrawTrace (c : UIContainer) : List String :=
  (List.range (MAX_DRAW_ORDER - MIN_DRAW_ORDER).toNat).flatMap
    (fun n => drawPass c.elements (MIN_DRAW_ORDER + n))

end UIContainer

/-- A `GameObject` owned by a `Scene`, abstracted to its pointer identity
(its virtual `Draw()` body only issues engine calls). -/
structure GameObj where
  ptr : Nat
deriving DecidableEq, Repr

/-- Observable events of `Scene::Draw()` (`part_005`), in emission order. -/
inductive DrawEvent where
  | beginDrawing
  | clearBackground
  | beginMode2D
  | objDraw (id : String)
  | endMode2D
  | uiDraw (id : String) (ord : Int)
  | endDrawing
deriving DecidableEq, Repr

/-- `Scene` (`scene.hpp`): `interfaces : map<string, UIContainer*>` and
`objects : map<string, GameObject*>`. -/
structure Scene where
  interfaces : List (String × UIContainer)
  objects : List (String × GameObj)
deriving DecidableEq, Repr

namespace Scene

/-- `Scene::Scene()`: both maps empty. -/
def init : Scene := { interfaces := [], objects := [] }

/-- `Scene::AddUi`: `interfaces.emplace(id, _ui)`. -/
def AddUi (s : Scene) (id : String) (ui : UIContainer) : Scene :=
  { s with interfaces := mapEmplace s.interfaces id ui }

/-- `Scene::AddObject`: `objects.emplace(id, _object)`. -/
def AddObject (s : Scene) (id : String) (o : GameObj) : Scene :=
  { s with objects := mapEmplace s.objects id o }

/-- One pass of the UI loop in `Scene::Draw()`: draw events of the owned
containers whose `GetDrawOrder()` equals `i`, in map order.  Each event
records the container's id and its draw order at the moment of the call. -/
def uiPass (uis : List (String × UIContainer)) (i : Int) : List DrawEvent :=
  uis.filterMap (fun p =>
    if p.2.GetDrawOrder = i then some (DrawEvent.uiDraw p.1 p.2.draw_order) else none)

/-- `Scene::Draw()`: begin frame, clear, camera pass drawing every owned
`GameObject` in map order, end camera pass, then
`for (int i = MIN_DRAW_ORDER; i <= MAX_DRAW_ORDER; i++)` (201 iterations,
upper bound inclusive) drawing each container whose order equals `i`,
then end frame. -/
def DrawTrace (s : Scene) : List DrawEvent :=
  [DrawEvent.beginDrawing, DrawEvent.clearBackground, DrawEvent.beginMode2D]
    ++ s.objects.map (fun p => DrawEvent.objDraw p.1)
    ++ [DrawEvent.endMode2D]
    ++ (List.range (MAX_DRAW_ORDER - MIN_DRAW_ORDER + 1).toNat).flatMap
        (fun n => uiPass s.interfaces (MIN_DRAW_ORDER + n))
    ++ [DrawEvent.endDrawing]

end Scene

/-- The ordering guarantee of `Scene::Draw()` between two trace events:
a UI draw is never followed by a game-object draw, and two UI draws appear
in non-decreasing container draw order.  Any other pair is unconstrained. -/
def evOrdered : DrawEvent → DrawEvent → Prop
  | DrawEvent.uiDraw _ o1, DrawEvent.uiDraw _ o2 => o1 ≤ o2
  | DrawEvent.uiDraw _ _, DrawEvent.objDraw _ => False
  | _, _ => True

/-- What `SceneManager::activeScene` points at, in the `part_005` variant:
either the static sentinel `SceneManager::emptyScene` or a managed scene
(identified by its pointer identity). -/
inductive ActiveRef where
  | emptySentinel
  | managed (p : Nat)
deriving DecidableEq, Repr

/-- `SceneManager` of `part_005`: owned scene map plus the non-owning
`activeScene` pointer, which the constructor aims at the static
`emptyScene`. -/
structure SceneManagerA where
  scenes : List (String × Nat)
  activeScene : ActiveRef
deriving DecidableEq, Repr

namespace SceneManagerA

/-- `SceneManager::SceneManager()` (`part_005`): `activeScene(&emptyScene)`,
no scenes registered. -/
def init : SceneManagerA := { scenes := [], activeScene := ActiveRef.emptySentinel }

/-- `SceneManager::AddScene` (`part_005`): `scenes.emplace(scene_id, _scene)`. -/
def AddScene (m : SceneManagerA) (id : String) (p : Nat) : SceneManagerA :=
  { m with scenes := mapEmplace m.scenes id p }

/-- `SceneManager::LoadScene` (`part_005`): on a missing id, point
`activeScene` at the static `emptyScene` and log an error; otherwise point
it at the found scene. -/
def LoadScene (m : SceneManagerA) (id : String) : SceneManagerA :=
  match mapFind m.scenes id with
  | none => { m with activeScene := ActiveRef.emptySentinel }
  | some p => { m with activeScene := ActiveRef.managed p }

/-- `activeScene` points at a live scene: the static sentinel, or a scene
currently stored in the manager's map. -/
def live (m : SceneManagerA) : Prop :=
  m.activeScene = ActiveRef.emptySentinel ∨
    ∃ id p, mapFind m.scenes id = some p ∧ m.activeScene = ActiveRef.managed p

end SceneManagerA

/-- `SceneManager` of the `AnimatedTexture.cpp` variant: the constructor
registers a fresh `"scene_default"` scene and makes it active; `LoadScene`
on a missing id throws NotFound. -/
structure SceneManagerB where
  scenes : List (String × Nat)
  activeScene : Nat
deriving DecidableEq, Repr

namespace SceneManagerB

/-- `SceneManager::SceneManager()` (`AnimatedTexture.cpp` variant):
`scenes.emplace("scene_default", new Scene()); activeScene = scenes["scene_default"];`.
`p` is the identity of the freshly allocated default scene. -/
def init (p : Nat) : SceneManagerB :=
  { scenes := mapEmplace [] "scene_default" p, activeScene := p }

/-- `SceneManager::AddScene` (variant B). -/
def AddScene (m : SceneManagerB) (id : String) (p : Nat) : SceneManagerB :=
  { m with scenes := mapEmplace m.scenes id p }

/-- `SceneManager::LoadScene` (variant B): on a missing id,
`ThrowNotFoundException(scene_id)` — the call fails with NotFound and
`activeScene` is not written; otherwise the found scene becomes active. -/
def LoadScene (m : SceneManagerB) (id : String) : Except String SceneManagerB :=
  match mapFind m.scenes id with
  | none => Except.error id
  | some p => Except.ok { m with activeScene := p }

/-- `activeScene` points at a scene currently stored in the map. -/
def live (m : SceneManagerB) : Prop :=
  ∃ id, mapFind m.scenes id = some m.activeScene

end SceneManagerB

/-- `AnimatedTexture` (`AnimatedTexture.hxx` / `AnimatedTexture.cpp`).
`frames.size()` is kept as `frameCount`; `std::chrono` time points and
durations are modelled as natural numbers of milliseconds, with the
current `steady_clock::now()` passed in explicitly where the code reads
it. -/
structure AnimatedTexture where
  frameCount : Nat
  ms_per_frame : Nat
  last_frame_change : Nat
  current_frame : Nat
  loop : Bool
  play : Bool
  initialized : Bool
deriving DecidableEq, Repr

namespace AnimatedTexture

/-- `AnimatedTexture(texture_name, frame_count, fps, _loop)`:
`ms_per_frame = 1000 / fps` (integer division),
`last_frame_change = now`, `frames.resize(frame_count)`,
`current_frame = 0`, `play = loop`, `initialized(false)`. -/
def make (frame_count fps : Nat) (lp : Bool) (now : Nat) : AnimatedTexture :=
  { frameCount := frame_count
    ms_per_frame := 1000 / fps
    last_frame_change := now
    current_frame := 0
    loop := lp
    play := lp
    initialized := false }

/-- `Initialize()`: loads the frame textures (engine call) and sets
`initialized = true`. -/
def Initialize (a : AnimatedTexture) : AnimatedTexture := { a with initialized := true }

/-- `Play()`: `play = true; last_frame_change = now;`. -/
def Play (a : AnimatedTexture) (now : Nat) : AnimatedTexture :=
  { a with play := true, last_frame_change := now }

/-- `Pause()`: `play = false;`. -/
def Pause (a : AnimatedTexture) : AnimatedTexture := { a with play := false }

/-- `Resume()`: calls `Play()`. -/
def Resume (a : AnimatedTexture) (now : Nat) : AnimatedTexture := a.Play now

/-- `Reset()`: `current_frame = 0;`. -/
def Reset (a : AnimatedTexture) : AnimatedTexture := { a with current_frame := 0 }

/-- `Stop()`: `Pause(); Reset();`. -/
def Stop (a : AnimatedTexture) : AnimatedTexture := a.Pause.Reset

/-- `Draw(transform)` is `const`: the state is returned unchanged and, when
initialized, the index of the frame handed to `DrawTexturePro` is
reported. -/
def Draw (a : AnimatedTexture) : AnimatedTexture × Option Nat :=
  (a, if a.initialized then some a.current_frame else none)

/-- `Update()`: when
`(steady_clock::now() - last_frame_change) > ms_per_frame && initialized && play`
(strictly greater), advance `current_frame` by one modulo `frames.size()`
and stamp `last_frame_change`; otherwise leave everything unchanged. -/
def Update (a : AnimatedTexture) (now : Nat) : AnimatedTexture :=
  if now - a.last_frame_change > a.ms_per_frame ∧ a.initialized ∧ a.play then
    { a with current_frame := (a.current_frame + 1) % a.frameCount
             last_frame_change := now }
  else a

/-- The spec's invariant: `current_frame ∈ [0, frame_count)`. -/
def Inv (a : AnimatedTexture) : Prop := a.current_frame < a.frameCount

end AnimatedTexture

/-- Mouse state read by `Button::Update()` through raylib:
`GetMousePosition()`, `IsMouseButtonDown(MOUSE_BUTTON_LEFT)` and
`IsMouseButtonPressed(MOUSE_BUTTON_LEFT)` (the latter is true only on the
frame the button went down, so it implies the former).  Coordinates are
modelled as integers. -/
structure MouseInput where
  pos : Int × Int
  leftDown : Bool
  leftPressed : Bool
deriving DecidableEq, Repr

/-- raylib `Rectangle` (integer model). -/
structure Rect where
  x : Int
  y : Int
  width : Int
  height : Int
deriving DecidableEq, Repr

/-- raylib `CheckCollisionPointRec`: point-in-rectangle test, bounds
inclusive. -/
def checkCollisionPointRec (p : Int × Int) (r : Rect) : Bool :=
  r.x ≤ p.1 ∧ p.1 ≤ r.x + r.width ∧ r.y ≤ p.2 ∧ p.2 ≤ r.y + r.height

/-- `UI::Button` interaction state (`UI.hpp` / `part_004`): `hover`,
`press`, the `enabled` flag inherited from `UIElement`, and the hitbox. -/
structure Button where
  hover : Bool
  press : Bool
  enabled : Bool
  hitbox : Rect
deriving DecidableEq, Repr

namespace Button

/-- `Button::Update()`: only when `enabled`, recompute `hover` from the
live mouse position; if `press` was set and the left button is no longer
down, run the callback and clear `press`; then set `press` on
hover-plus-click-down, or clear it when not hovered.  The second component
counts the callback invocations made during the call. -/
def Update (b : Button) (m : MouseInput) : Button × Nat :=
  if b.enabled then
    let hover := checkCollisionPointRec m.pos b.hitbox
    let press1 := if b.press ∧ ¬ m.leftDown then false else b.press
    let calls := if b.press ∧ ¬ m.leftDown then 1 else 0
    let press2 :=
      if hover ∧ m.leftPressed then true
      else if ¬ hover then false
      else press1
    ({ b with hover := hover, press := press2 }, calls)
  else (b, 0)

/-- `Button::IsPressed`. -/
def IsPressed (b : Button) : Bool := b.press

/-- `Button::IsHover`. -/
def IsHover (b : Button) : Bool := b.hover

end Button

/-! Concrete sample values used by witnesses and counterexamples. -/

/-- A visible element at draw order 100 (reachable: `SetDrawOrder` clamps to
at most 100). -/
def elemOrder100 : UIElement :=
  { ptr := 0, draw_order := 100, active := true, enabled := true, updates := 0 }

/-- A container holding only `elemOrder100`. -/
def containerOrder100 : UIContainer :=
  { elements := [("a", elemOrder100)], draw_order := 0 }

/-- The same container with the element moved to draw order 99. -/
def containerOrder99 : UIContainer :=
  { elements := [("a", { elemOrder100 with draw_order := 99 })], draw_order := 0 }

/-- A displayed (but disabled) sample element. -/
def sampleElemVisible : UIElement :=
  { ptr := 1, draw_order := 5, active := true, enabled := false, updates := 0 }

/-- A hidden (but enabled) sample element. -/
def sampleElemHidden : UIElement :=
  { ptr := 2, draw_order := 0, active := false, enabled := true, updates := 3 }

/-- A fresh element not yet stored anywhere. -/
def sampleElemNew : UIElement :=
  { ptr := 42, draw_order := 0, active := true, enabled := true, updates := 0 }

/-- A container holding the two sample elements. -/
def sampleContainer : UIContainer :=
  { elements := [("h", sampleElemHidden), ("v", sampleElemVisible)], draw_order := 0 }

/-- A scene with one game object and two UI containers, one of which has an
out-of-range draw order. -/
def sampleScene : Scene :=
  { interfaces := [("hud", { elements := [], draw_order := 150 }),
                   ("menu", { elements := [], draw_order := 2 })],
    objects := [("player", { ptr := 9 })] }

/-- A variant-A scene manager with one registered scene, active. -/
def sampleManagerA : SceneManagerA :=
  { scenes := [("level1", 11)], activeScene := ActiveRef.managed 11 }

/-- A variant-B scene manager fresh from its constructor. -/
def sampleManagerB : SceneManagerB := SceneManagerB.init 7

/-- A 4-frame, 25 fps (40 ms per frame) looping texture, initialized:
`play` is true because the constructor copies the loop flag into it. -/
def sampleAnim : AnimatedTexture := (AnimatedTexture.make 4 25 true 0).Initialize

/-- An enabled button that was pressed on an earlier frame. -/
def sampleButton : Button :=
  { hover := false, press := true, enabled := true,
    hitbox := { x := 0, y := 0, width := 100, height := 100 } }

/-- Mouse state on the frame after the left button was released over the
button. -/
def sampleMouseReleased : MouseInput :=
  { pos := (50, 50), leftDown := false, leftPressed := false }

end RGame

namespace RGame

/-! ## Association-list (std::map) lemmas -/

/-- After `emplace` of a key that was absent, `find` returns the new value. -/
theorem mapFind_mapEmplace_self {κ α : Type} [LinearOrder κ] [DecidableEq κ]
    (l : List (κ × α)) (k : κ) (v : α)
    (h : mapFind l k = none) : mapFind (mapEmplace l k v) k = some v := by
  induction l with
  | nil => simp [mapEmplace, mapFind]
  | cons hd t ih =>
    obtain ⟨k1, v1⟩ := hd
    by_cases hk : k = k1
    · simp [mapFind, hk] at h
    · simp only [mapFind, if_neg hk] at h
      by_cases h1 : k < k1
      · simp [mapEmplace, if_pos h1, mapFind]
      · by_cases h2 : k1 < k
        · simp only [mapEmplace, if_neg h1, if_pos h2, mapFind, if_neg hk]
          exact ih h
        · exact absurd (le_antisymm (not_lt.mp h2) (not_lt.mp h1)) hk

/-- `erase` after `emplace` of a key that was absent restores the original
map. -/
theorem mapErase_mapEmplace {κ α : Type} [LinearOrder κ] [DecidableEq κ]
    (l : List (κ × α)) (k : κ) (v : α)
    (h : mapFind l k = none) : mapErase (mapEmplace l k v) k = l := by
  induction l with
  | nil => simp [mapEmplace, mapErase]
  | cons hd t ih =>
    obtain ⟨k1, v1⟩ := hd
    by_cases hk : k = k1
    · simp [mapFind, hk] at h
    · simp only [mapFind, if_neg hk] at h
      by_cases h1 : k < k1
      · simp [mapEmplace, if_pos h1, mapErase]
      · by_cases h2 : k1 < k
        · simp only [mapEmplace, if_neg h1, if_pos h2, mapErase, if_neg hk]
          rw [ih h]
        · exact absurd (le_antisymm (not_lt.mp h2) (not_lt.mp h1)) hk

/-- `find` commutes with mapping a function over the stored values. -/
theorem mapFind_map {κ α β : Type} [DecidableEq κ] (l : List (κ × α)) (f : α → β) (k : κ) :
    mapFind (l.map (fun p => (p.1, f p.2))) k = (mapFind l k).map f := by
  induction l with
  | nil => simp [mapFind]
  | cons hd t ih =>
    obtain ⟨k1, v1⟩ := hd
    by_cases hk : k = k1
    · simp [mapFind, hk]
    · simp [mapFind, hk, ih]

/-- In a list with no duplicate keys, a key determines its value. -/
theorem mapKeys_unique {κ α : Type} {l : List (κ × α)} (h : (l.map Prod.fst).Nodup)
    {k : κ} {a b : α} (ha : (k, a) ∈ l) (hb : (k, b) ∈ l) : a = b := by
  induction l with
  | nil => cases ha
  | cons hd t ih =>
    obtain ⟨k1, v1⟩ := hd
    simp only [List.map_cons, List.nodup_cons] at h
    rcases List.mem_cons.mp ha with ha1 | ha1 <;> rcases List.mem_cons.mp hb with hb1 | hb1
    · cases ha1
      injection hb1 with h1 h2
      exact h2.symm
    · exfalso
      apply h.1
      cases ha1
      exact List.mem_map.mpr ⟨(k, b), hb1, rfl⟩
    · exfalso
      apply h.1
      cases hb1
      exact List.mem_map.mpr ⟨(k, a), ha1, rfl⟩
    · exact ih h.2 ha1 hb1

end RGame

namespace RGame

/-! ## Claim C1 -/

/-- C1: the claim says `UIContainer::Draw()` iterates draw order values
from -100 to 100 inclusive, so that every displayed element with
draw order in [-100, 100] is drawn.  The loop in the code is
`for (int i = MIN_DRAW_ORDER; i < MAX_DRAW_ORDER; i++)` — the upper bound
is exclusive — so a displayed element sitting at draw order 100 (a value
`UIElement::SetDrawOrder` itself clamps to) is never drawn: the container
below stores exactly one element, displayed, at order 100, and its draw
trace is empty, while the same element at order 99 is drawn.  Since the
sibling loop in `Scene::Draw()` uses `<=` and the class documentation says
`Draw()` draws all stored elements, the exclusive bound is a slip in the
code. -/
theorem uiContainer_draw_skips_order_100 :
    mapFind containerOrder100.elements "a" = some elemOrder100
    ∧ elemOrder100.GetDisplayState = true
    ∧ elemOrder100.GetDrawOrder = 100
    ∧ MIN_DRAW_ORDER ≤ elemOrder100.GetDrawOrder
    ∧ elemOrder100.GetDrawOrder ≤ MAX_DRAW_ORDER
    ∧ ((UIElement.init 0).SetDrawOrder 150).GetDrawOrder = 100
    ∧ containerOrder100.DrawTrace = []
    ∧ containerOrder99.DrawTrace = ["a"] := by
  set_option maxRecDepth 8000 in decide


/-! ## Claim C2 -/

/-- C2: the claim says both `UIElement::SetDrawOrder` and
`UIContainer::SetDrawOrder` clamp the written value to [-100, 100].
`UIElement::SetDrawOrder` does clamp, but `UIContainer::SetDrawOrder` is a
bare assignment, contradicting its own header comment ("If it is outside
it will be clamped"): writing 150 to a container stores 150, outside the
documented range, where the clamped value would be 100. -/
theorem uiContainer_setDrawOrder_does_not_clamp :
    ((UIContainer.init.SetDrawOrder 150).GetDrawOrder = 150)
    ∧ (UIContainer.init.SetDrawOrder 150).GetDrawOrder ≠ 100
    ∧ MAX_DRAW_ORDER < (UIContainer.init.SetDrawOrder 150).GetDrawOrder
    ∧ ((UIContainer.init.SetDrawOrder (-150)).GetDrawOrder = -150)
    ∧ ((UIElement.init 0).SetDrawOrder 150).GetDrawOrder = 100
    ∧ ((UIElement.init 0).SetDrawOrder (-150)).GetDrawOrder = -100
    ∧ ((UIElement.init 0).SetDrawOrder 37).GetDrawOrder = 37 := by
  decide

/-! ## Claim C3 -/

/-- C3: `UIContainer::Update()` invokes a stored element's `Update()` if
and only if the element's display state is true at call time, and the
element's enabled flag plays no part in that decision: after the
container's `Update()`, the element stored at `id` has its invocation
counter bumped by one exactly when `GetDisplayState()` was true, keeps its
other fields, and the per-element gate treats any value of `enabled`
alike. -/
theorem uiContainer_update_gates_on_display :
    ∀ (c : UIContainer) (id : String) (e : UIElement),
    mapFind c.elements id = some e →
    ∃ e', mapFind (c.Update).elements id = some e'
      ∧ (e'.updates = e.updates + 1 ↔ e.GetDisplayState = true)
      ∧ (e'.updates = e.updates ↔ e.GetDisplayState = false)
      ∧ e'.active = e.active ∧ e'.enabled = e.enabled
      ∧ e'.draw_order = e.draw_order ∧ e'.ptr = e.ptr
      ∧ (∀ b : Bool,
          (UIContainer.updateGate { e with enabled := b }).updates =
            (UIContainer.updateGate e).updates) := by
  intro c id e h
  refine ⟨UIContainer.updateGate e, ?_, ?_⟩
  · show mapFind (c.elements.map (fun p => (p.1, UIContainer.updateGate p.2))) id = _
    rw [mapFind_map, h, Option.map_some']
  · cases he : e.active <;>
      simp [UIContainer.updateGate, UIElement.GetDisplayState, UIElement.doUpdate, he]

/-- Witness for C3 at a concrete container: the displayed (and disabled)
element `sampleElemVisible` stored at `"v"`. -/
theorem uiContainer_update_gates_on_display_witness :
    mapFind sampleContainer.elements "v" = some sampleElemVisible
    ∧ ∃ e', mapFind (sampleContainer.Update).elements "v" = some e'
      ∧ (e'.updates = sampleElemVisible.updates + 1 ↔ sampleElemVisible.GetDisplayState = true)
      ∧ (e'.updates = sampleElemVisible.updates ↔ sampleElemVisible.GetDisplayState = false)
      ∧ e'.active = sampleElemVisible.active ∧ e'.enabled = sampleElemVisible.enabled
      ∧ e'.draw_order = sampleElemVisible.draw_order ∧ e'.ptr = sampleElemVisible.ptr
      ∧ (∀ b : Bool,
          (UIContainer.updateGate { sampleElemVisible with enabled := b }).updates =
            (UIContainer.updateGate sampleElemVisible).updates) :=
  ⟨by decide, uiContainer_update_gates_on_display sampleContainer "v" sampleElemVisible (by decide)⟩

/-! ## Claim C8 -/

/-- C8: for unique ids, `GetElement(id)` right after `AddElement(id, e)`
returns (a reference aliasing) `e`; `RemoveElement(id)` on that stored id
runs the element's destructor exactly once, restores the element map, and
a subsequent `GetElement(id)` fails with NotFound; `RemoveElement` on an
absent id destroys nothing and leaves the container unchanged. -/
theorem uiContainer_add_get_remove :
    ∀ (c : UIContainer) (id : String) (e : UIElement),
    mapFind c.elements id = none →
      (c.AddElement id e).GetElement id = Except.ok e
      ∧ ((c.AddElement id e).RemoveElement id).2 = [e.ptr]
      ∧ ((c.AddElement id e).RemoveElement id).1.elements = c.elements
      ∧ ((c.AddElement id e).RemoveElement id).1.GetElement id = Except.error id
      ∧ c.RemoveElement id = (c, []) := by
  intro c id e h
  have hf : mapFind (mapEmplace c.elements id e) id = some e :=
    mapFind_mapEmplace_self c.elements id e h
  have he : mapErase (mapEmplace c.elements id e) id = c.elements :=
    mapErase_mapEmplace c.elements id e h
  refine ⟨?_, ?_, ?_, ?_, ?_⟩
  · simp [UIContainer.GetElement, UIContainer.AddElement, hf]
  · simp [UIContainer.RemoveElement, UIContainer.AddElement, hf]
  · simp [UIContainer.RemoveElement, UIContainer.AddElement, hf, he]
  · simp [UIContainer.RemoveElement, UIContainer.AddElement, UIContainer.GetElement, hf, he, h]
  · simp [UIContainer.RemoveElement, h]

/-- Witness for C8: adding and removing a fresh element `sampleElemNew`
under the unused id `"x"` of `sampleContainer`. -/
theorem uiContainer_add_get_remove_witness :
    mapFind sampleContainer.elements "x" = none
    ∧ (sampleContainer.AddElement "x" sampleElemNew).GetElement "x" = Except.ok sampleElemNew
    ∧ ((sampleContainer.AddElement "x" sampleElemNew).RemoveElement "x").2 = [sampleElemNew.ptr]
    ∧ ((sampleContainer.AddElement "x" sampleElemNew).RemoveElement "x").1.elements
        = sampleContainer.elements
    ∧ ((sampleContainer.AddElement "x" sampleElemNew).RemoveElement "x").1.GetElement "x"
        = Except.error "x"
    ∧ sampleContainer.RemoveElement "x" = (sampleContainer, []) :=
  ⟨by decide, uiContainer_add_get_remove sampleContainer "x" sampleElemNew (by decide)⟩


/-! ## Claim C6 -/

/-- C6, counterexample to the claim as stated: the claim advances the
frame as soon as the elapsed time is AT LEAST the per-frame duration, but
`AnimatedTexture::Update()` compares with strict `>`.  `sampleAnim` is
playing, initialized, has a 40 ms per-frame duration and last changed at
time 0; polled at time 40 (elapsed = duration, so the claim demands an
advance to frame 1) it does not advance. -/
theorem animatedTexture_update_at_exact_duration :
    sampleAnim.play = true
    ∧ sampleAnim.initialized = true
    ∧ sampleAnim.ms_per_frame ≤ 40 - sampleAnim.last_frame_change
    ∧ (sampleAnim.current_frame + 1) % sampleAnim.frameCount = 1
    ∧ (sampleAnim.Update 40).current_frame = 0
    ∧ sampleAnim.Update 40 = sampleAnim := by
  decide

/-- C6 as amended: `Update()` advances `current_frame` by exactly one
modulo `frame_count` and stamps the last-change time if and only if the
play flag is set, the texture is initialized, and the elapsed time since
the last frame change is STRICTLY GREATER than the per-frame duration
(computed by the constructor as 1000 ms / fps in integer division);
otherwise it changes nothing; and the stored loop flag has no effect on
any of this. -/
theorem animatedTexture_update_advances_iff_strictly_elapsed :
    ∀ (a : AnimatedTexture) (now : Nat),
    (a.play = true ∧ a.initialized = true ∧ a.ms_per_frame < now - a.last_frame_change →
      a.Update now =
        { a with current_frame := (a.current_frame + 1) % a.frameCount
                 last_frame_change := now })
    ∧ (¬ (a.play = true ∧ a.initialized = true ∧ a.ms_per_frame < now - a.last_frame_change) →
      a.Update now = a)
    ∧ (∀ b : Bool,
        AnimatedTexture.Update { a with loop := b } now = { a.Update now with loop := b })
    ∧ (∀ (fc fps : Nat) (lp : Bool) (t : Nat),
        (AnimatedTexture.make fc fps lp t).ms_per_frame = 1000 / fps) := by
  intro a now
  refine ⟨?_, ?_, ?_, fun fc fps lp t => rfl⟩
  · intro h
    simp only [AnimatedTexture.Update]
    rw [if_pos]
    exact ⟨h.2.2, h.2.1, h.1⟩
  · intro h
    simp only [AnimatedTexture.Update]
    rw [if_neg]
    intro hc
    exact h ⟨hc.2.2, hc.2.1, hc.1⟩
  · intro b
    simp only [AnimatedTexture.Update]
    by_cases hc : a.ms_per_frame < now - a.last_frame_change ∧ a.initialized = true ∧ a.play = true
    · rw [if_pos, if_pos hc]
      exact hc
    · rw [if_neg, if_neg hc]
      exact hc

/-- Witness for C6 (amended): `sampleAnim` polled at time 41 (elapsed 41 ms,
strictly more than the 40 ms per-frame duration) advances from frame 0 to
frame 1 and restamps the timer. -/
theorem animatedTexture_update_strict_witness :
    (sampleAnim.play = true ∧ sampleAnim.initialized = true
      ∧ sampleAnim.ms_per_frame < 41 - sampleAnim.last_frame_change)
    ∧ sampleAnim.Update 41 =
        { sampleAnim with
            current_frame := (sampleAnim.current_frame + 1) % sampleAnim.frameCount
            last_frame_change := 41 } :=
  ⟨by decide,
    (animatedTexture_update_advances_iff_strictly_elapsed sampleAnim 41).1 (by decide)⟩

/-! ## Claim C7 -/

/-- C7: for an `AnimatedTexture` constructed with `frame_count >= 1` the
invariant `current_frame ∈ [0, frame_count)` holds (the constructor sizes
`frames` to `frame_count` and zeroes the index), and every operation —
`Initialize`, `Play`, `Pause`, `Resume`, `Stop`, `Reset`, `Update`, and
the `const` `Draw` — preserves it. -/
theorem animatedTexture_frame_index_invariant :
    ∀ (fc fps t t2 : Nat) (lp : Bool) (a : AnimatedTexture),
    1 ≤ fc → a.Inv →
      (AnimatedTexture.make fc fps lp t).Inv
      ∧ a.Initialize.Inv
      ∧ (a.Play t2).Inv
      ∧ a.Pause.Inv
      ∧ (a.Resume t2).Inv
      ∧ a.Stop.Inv
      ∧ a.Reset.Inv
      ∧ (a.Update t2).Inv
      ∧ (a.Draw).1.Inv := by
  intro fc fps t t2 lp a hfc ha
  have hpos : 0 < a.frameCount := Nat.lt_of_le_of_lt (Nat.zero_le _) ha
  refine ⟨hfc, ha, ha, ha, ha, hpos, hpos, ?_, ha⟩
  show AnimatedTexture.Inv (AnimatedTexture.Update a t2)
  simp only [AnimatedTexture.Update]
  split
  · exact Nat.mod_lt _ hpos
  · exact ha

/-- Witness for C7: the concrete 4-frame texture `sampleAnim`. -/
theorem animatedTexture_frame_index_invariant_witness :
    (1 ≤ 4 ∧ sampleAnim.Inv)
    ∧ (AnimatedTexture.make 4 25 true 0).Inv
    ∧ sampleAnim.Initialize.Inv
    ∧ (sampleAnim.Play 5).Inv
    ∧ sampleAnim.Pause.Inv
    ∧ (sampleAnim.Resume 5).Inv
    ∧ sampleAnim.Stop.Inv
    ∧ sampleAnim.Reset.Inv
    ∧ (sampleAnim.Update 5).Inv
    ∧ (sampleAnim.Draw).1.Inv :=
  ⟨⟨by decide, by exact (by decide : sampleAnim.current_frame < sampleAnim.frameCount)⟩,
    animatedTexture_frame_index_invariant 4 25 0 5 true sampleAnim (by decide)
      (by exact (by decide : sampleAnim.current_frame < sampleAnim.frameCount))⟩


/-! ## Claim C5 -/

/-- C5: `SceneManager::LoadScene` on an unregistered id never leaves
`activeScene` null or dangling.  In the `part_005` variant the manager
redirects `activeScene` to the designated static empty sentinel scene
(logging an error) and leaves the scene map untouched, so the live-scene
invariant holds afterwards; in the `AnimatedTexture.cpp` variant the call
fails with NotFound (`ThrowNotFoundException`) without writing
`activeScene`, leaving the manager unchanged. -/
theorem sceneManager_loadScene_missing_id_keeps_active_live :
    ∀ (mA : SceneManagerA) (mB : SceneManagerB) (idA idB : String),
    mapFind mA.scenes idA = none → mapFind mB.scenes idB = none →
      (mA.LoadScene idA).activeScene = ActiveRef.emptySentinel
      ∧ (mA.LoadScene idA).scenes = mA.scenes
      ∧ (mA.LoadScene idA).live
      ∧ mB.LoadScene idB = Except.error idB := by
  intro mA mB idA idB hA hB
  refine ⟨?_, ?_, ?_, ?_⟩
  · simp [SceneManagerA.LoadScene, hA]
  · simp [SceneManagerA.LoadScene, hA]
  · left
    simp [SceneManagerA.LoadScene, hA]
  · simp [SceneManagerB.LoadScene, hB]

/-- Witness for C5: loading the unregistered id `"missing"` on the two
sample managers. -/
theorem sceneManager_loadScene_missing_id_witness :
    (mapFind sampleManagerA.scenes "missing" = none
      ∧ mapFind sampleManagerB.scenes "missing" = none)
    ∧ (sampleManagerA.LoadScene "missing").activeScene = ActiveRef.emptySentinel
    ∧ (sampleManagerA.LoadScene "missing").scenes = sampleManagerA.scenes
    ∧ (sampleManagerA.LoadScene "missing").live
    ∧ sampleManagerB.LoadScene "missing" = Except.error "missing" :=
  ⟨⟨by decide, by decide⟩,
    sceneManager_loadScene_missing_id_keeps_active_live sampleManagerA sampleManagerB
      "missing" "missing" (by decide) (by decide)⟩

/-! ## Claim C9 -/

/-- C9: for an enabled `Button`, `Update()` recomputes `hover` as the
point-in-rectangle test of the live mouse position against the hitbox; if
`press` was set and the left button is no longer down, the stored callback
runs exactly once during the call and `press` ends false; `press` ends
true when the (new) hover holds and the left button went down this frame;
`press` ends false whenever hover fails; the callback count is exactly one
on a release and zero otherwise; and a disabled button is left completely
unchanged with no callback.  (`IsMouseButtonPressed` implies
`IsMouseButtonDown` on the same frame, the sole hypothesis.) -/
theorem button_update_transitions :
    ∀ (b : Button) (m : MouseInput),
    (m.leftPressed = true → m.leftDown = true) →
      (b.enabled = true →
        (b.Update m).1.hover = checkCollisionPointRec m.pos b.hitbox
        ∧ (b.press = true ∧ m.leftDown = false →
            (b.Update m).2 = 1 ∧ (b.Update m).1.press = false)
        ∧ ((b.Update m).1.hover = true ∧ m.leftPressed = true →
            (b.Update m).1.press = true)
        ∧ ((b.Update m).1.hover = false → (b.Update m).1.press = false)
        ∧ (b.Update m).2 = (if b.press = true ∧ m.leftDown = false then 1 else 0))
      ∧ (b.enabled = false → (b.Update m).1 = b ∧ (b.Update m).2 = 0) := by
  intro b m hpd
  constructor
  · intro hen
    cases hpr : b.press <;> cases hdn : m.leftDown <;> cases hps : m.leftPressed <;>
      cases hcol : checkCollisionPointRec m.pos b.hitbox <;>
        simp_all [Button.Update, hen, hpr, hdn, hps, hcol]
  · intro hen
    simp [Button.Update, hen]

/-- Witness for C9: the pressed sample button sees the left button
released while the mouse sits inside its hitbox; the callback fires once
and the press state clears. -/
theorem button_update_transitions_witness :
    (sampleMouseReleased.leftPressed = true → sampleMouseReleased.leftDown = true)
    ∧ (sampleButton.enabled = true →
        (sampleButton.Update sampleMouseReleased).1.hover
            = checkCollisionPointRec sampleMouseReleased.pos sampleButton.hitbox
        ∧ (sampleButton.press = true ∧ sampleMouseReleased.leftDown = false →
            (sampleButton.Update sampleMouseReleased).2 = 1
            ∧ (sampleButton.Update sampleMouseReleased).1.press = false)
        ∧ ((sampleButton.Update sampleMouseReleased).1.hover = true
              ∧ sampleMouseReleased.leftPressed = true →
            (sampleButton.Update sampleMouseReleased).1.press = true)
        ∧ ((sampleButton.Update sampleMouseReleased).1.hover = false →
            (sampleButton.Update sampleMouseReleased).1.press = false)
        ∧ (sampleButton.Update sampleMouseReleased).2 =
            (if sampleButton.press = true ∧ sampleMouseReleased.leftDown = false then 1 else 0))
      ∧ (sampleButton.enabled = false →
          (sampleButton.Update sampleMouseReleased).1 = sampleButton
          ∧ (sampleButton.Update sampleMouseReleased).2 = 0) :=
  ⟨by decide, button_update_transitions sampleButton sampleMouseReleased (by decide)⟩

/-! ## Claim C4 -/

/-- Every event emitted by one pass of the UI loop of `Scene::Draw()` is a
`uiDraw` of a container stored with that exact draw order. -/
theorem mem_uiPass {uis : List (String × UIContainer)} {i : Int} {ev : DrawEvent}
    (h : ev ∈ Scene.uiPass uis i) :
    ∃ id c, (id, c) ∈ uis ∧ c.draw_order = i ∧ ev = DrawEvent.uiDraw id i := by
  simp only [Scene.uiPass, List.mem_filterMap] at h
  obtain ⟨p, hp, hev⟩ := h
  by_cases hord : p.2.GetDrawOrder = i
  · refine ⟨p.1, p.2, hp, hord, ?_⟩
    rw [if_pos hord] at hev
    cases hev
    rw [show p.2.draw_order = i from hord]
  · rw [if_neg hord] at hev
    cases hev

/-- An event that is not a `uiDraw` is `evOrdered`-below anything. -/
theorem evOrdered_of_not_ui {a : DrawEvent} (h : ∀ id o, a ≠ DrawEvent.uiDraw id o)
    (b : DrawEvent) : evOrdered a b := by
  cases a <;> first
  | exact absurd rfl (h _ _)
  | cases b <;> trivial

/-- Gluing `Pairwise` across `flatMap`: sorted blocks whose cross pairs are
related give a sorted concatenation. -/
theorem pairwise_flatMap {α β : Type} {R : β → β → Prop} (l : List α) (f : α → List β)
    (h1 : ∀ a ∈ l, (f a).Pairwise R)
    (h2 : l.Pairwise (fun a b => ∀ x ∈ f a, ∀ y ∈ f b, R x y)) :
    (l.flatMap f).Pairwise R := by
  induction l with
  | nil => simp
  | cons hd t ih =>
    rw [List.flatMap_cons, List.pairwise_append]
    rcases List.pairwise_cons.mp h2 with ⟨hhd, ht⟩
    refine ⟨h1 hd (List.mem_cons_self hd t),
      ih (fun a ha => h1 a (List.mem_cons_of_mem _ ha)) ht, ?_⟩
    intro x hx y hy
    obtain ⟨b, hb, hyb⟩ := List.mem_flatMap.mp hy
    exact hhd b hb x hx y hyb

/-- The UI phase of `Scene::Draw()` is sorted under `evOrdered`: the outer
loop walks the order values upward and each pass only emits events at its
own order value. -/
theorem uiPhase_pairwise (uis : List (String × UIContainer)) (N : Nat) :
    ((List.range N).flatMap (fun n => Scene.uiPass uis (MIN_DRAW_ORDER + n))).Pairwise
      evOrdered := by
  apply pairwise_flatMap
  · intro n _
    apply List.pairwise_of_forall_mem_list
    intro a ha b hb
    obtain ⟨_, _, _, _, rfl⟩ := mem_uiPass ha
    obtain ⟨_, _, _, _, rfl⟩ := mem_uiPass hb
    exact le_refl _
  · refine (List.pairwise_lt_range N).imp ?_
    intro n1 n2 hlt x hx y hy
    obtain ⟨_, _, _, _, rfl⟩ := mem_uiPass hx
    obtain ⟨_, _, _, _, rfl⟩ := mem_uiPass hy
    show MIN_DRAW_ORDER + (n1 : Int) ≤ MIN_DRAW_ORDER + (n2 : Int)
    omega

/-- C4: in one `Scene::Draw()` call, every owned game object is drawn, all
game-object draws precede every UI-container draw (the objects are drawn
inside the camera pass, the containers after it), and the container draws
appear in ascending (non-decreasing) order of their draw orders. -/
theorem scene_draw_objects_before_ordered_ui :
    ∀ (s : Scene) (oid : String) (o : GameObj),
    (oid, o) ∈ s.objects →
      DrawEvent.objDraw oid ∈ s.DrawTrace
      ∧ s.DrawTrace.Pairwise evOrdered := by
  intro s oid o hmem
  constructor
  · simp only [Scene.DrawTrace, List.mem_append]
    left; left; left; right
    exact List.mem_map.mpr ⟨(oid, o), hmem, rfl⟩
  · have hAnotui : ∀ a ∈ ([DrawEvent.beginDrawing, DrawEvent.clearBackground,
        DrawEvent.beginMode2D] : List DrawEvent), ∀ id ord, a ≠ DrawEvent.uiDraw id ord := by
      intro a ha id ord
      simp only [List.mem_cons, List.not_mem_nil, or_false] at ha
      rcases ha with rfl | rfl | rfl <;> exact fun h => DrawEvent.noConfusion h
    have hBnotui : ∀ a ∈ s.objects.map (fun p => DrawEvent.objDraw p.1),
        ∀ id ord, a ≠ DrawEvent.uiDraw id ord := by
      intro a ha id ord
      obtain ⟨p, _, rfl⟩ := List.mem_map.mp ha
      exact fun h => DrawEvent.noConfusion h
    simp only [Scene.DrawTrace]
    rw [List.pairwise_append]
    refine ⟨?_, by simp, ?_⟩
    · rw [List.pairwise_append]
      refine ⟨?_, uiPhase_pairwise s.interfaces _, ?_⟩
      · rw [List.pairwise_append]
        refine ⟨?_, by simp, ?_⟩
        · rw [List.pairwise_append]
          refine ⟨?_, ?_, ?_⟩
          · apply List.pairwise_of_forall_mem_list
            intro a ha b _
            exact evOrdered_of_not_ui (hAnotui a ha) b
          · apply List.pairwise_of_forall_mem_list
            intro a ha b _
            exact evOrdered_of_not_ui (hBnotui a ha) b
          · intro a ha b _
            exact evOrdered_of_not_ui (hAnotui a ha) b
        · intro a ha b _
          rcases List.mem_append.mp ha with ha1 | ha1
          · exact evOrdered_of_not_ui (hAnotui a ha1) b
          · exact evOrdered_of_not_ui (hBnotui a ha1) b
      · intro a ha b _
        rcases List.mem_append.mp ha with ha1 | ha1
        · rcases List.mem_append.mp ha1 with ha2 | ha2
          · exact evOrdered_of_not_ui (hAnotui a ha2) b
          · exact evOrdered_of_not_ui (hBnotui a ha2) b
        · simp only [List.mem_cons, List.not_mem_nil, or_false] at ha1
          subst ha1
          exact evOrdered_of_not_ui (fun _ _ h => DrawEvent.noConfusion h) b
    · intro a _ b hb
      simp only [List.mem_cons, List.not_mem_nil, or_false] at hb
      subst hb
      cases a <;> trivial


/-- Witness for C4: the concrete `sampleScene`, whose game object
`"player"` is drawn before its two UI containers. -/
theorem scene_draw_objects_before_ordered_ui_witness :
    ("player", ({ ptr := 9 } : GameObj)) ∈ sampleScene.objects
    ∧ DrawEvent.objDraw "player" ∈ sampleScene.DrawTrace
    ∧ sampleScene.DrawTrace.Pairwise evOrdered :=
  ⟨by decide,
    scene_draw_objects_before_ordered_ui sampleScene "player" { ptr := 9 } (by decide)⟩

/-! ## Claim C10 -/

/-- C10: `Scene::Draw()` never draws an owned `UIContainer` whose draw
order lies outside [-100, 100] — its UI loop only visits order values in
that range — and such a container is reachable through the public
interface because `UIContainer::SetDrawOrder` stores any integer without
clamping; the container is then silently skipped every frame. -/
theorem scene_draw_silently_skips_out_of_range_container :
    ∀ (s : Scene) (id : String) (c : UIContainer),
    (s.interfaces.map Prod.fst).Nodup →
    (id, c) ∈ s.interfaces →
    (c.draw_order < MIN_DRAW_ORDER ∨ MAX_DRAW_ORDER < c.draw_order) →
      (∀ o : Int, DrawEvent.uiDraw id o ∉ s.DrawTrace)
      ∧ (∀ (c0 : UIContainer) (v : Int), (c0.SetDrawOrder v).GetDrawOrder = v) := by
  intro s id c hnd hmem hout
  refine ⟨?_, fun c0 v => rfl⟩
  intro o htr
  simp only [Scene.DrawTrace, List.mem_append, List.mem_cons, List.not_mem_nil,
    or_false] at htr
  rcases htr with (((h | h) | h) | h) | h
  · rcases h with h | h | h <;> exact DrawEvent.noConfusion h
  · obtain ⟨p, _, hp⟩ := List.mem_map.mp h
    exact DrawEvent.noConfusion hp
  · exact DrawEvent.noConfusion h
  · obtain ⟨n, hn, hev⟩ := List.mem_flatMap.mp h
    obtain ⟨id1, c1, hmem1, hord1, heq⟩ := mem_uiPass hev
    have hid : id1 = id := by
      have := congrArg (fun ev => match ev with
        | DrawEvent.uiDraw i _ => i
        | _ => "") heq
      exact this.symm
    subst hid
    have hcc : c = c1 := mapKeys_unique hnd hmem hmem1
    have hrange : n < (MAX_DRAW_ORDER - MIN_DRAW_ORDER + 1).toNat := List.mem_range.mp hn
    rw [← hcc] at hord1
    rcases hout with hout | hout
    · rw [hord1] at hout
      simp only [MIN_DRAW_ORDER] at hout
      omega
    · rw [hord1] at hout
      simp only [MIN_DRAW_ORDER, MAX_DRAW_ORDER] at hout hrange
      omega
  · exact DrawEvent.noConfusion h

/-- Witness for C10: the `"hud"` container of `sampleScene` sits at draw
order 150 and never appears in the scene's draw trace. -/
theorem scene_draw_silently_skips_witness :
    ((sampleScene.interfaces.map Prod.fst).Nodup
      ∧ (("hud", ({ elements := [], draw_order := 150 } : UIContainer)) ∈ sampleScene.interfaces)
      ∧ (MAX_DRAW_ORDER < (150 : Int)))
    ∧ (∀ o : Int, DrawEvent.uiDraw "hud" o ∉ sampleScene.DrawTrace)
    ∧ (∀ (c0 : UIContainer) (v : Int), (c0.SetDrawOrder v).GetDrawOrder = v) :=
  ⟨⟨by decide, by decide, by decide⟩,
    scene_draw_silently_skips_out_of_range_container sampleScene "hud"
      { elements := [], draw_order := 150 } (by decide) (by decide) (Or.inr (by decide))⟩

end RGame
